import Mathlib

/-!
Verification of the phenn state engine (`src/state/AppState.ts`, with types from
`src/types/index.ts` and defaults from `src/config/constants.ts`).

The TypeScript reducer is embedded shallowly: each TS interface becomes a Lean
structure, the stringly-typed `ActionType` plus per-case payload casts become a
single `Action` inductive with typed payloads, and `Math.random()`-based id
generation becomes an explicit `freshId` argument threaded into `reduce`.
JS arrays map to `List`, `undefined`-able fields to `Option`, and the JS
truthiness test on optional string fields (`undefined` and `""` are falsy) is
made explicit as `strTruthy`.  `deepClone` (a JSON round-trip on plain data)
is the identity on these pure values.
-/

namespace Phenn

/-- `Point` from `src/types/index.ts`: `{x, y, id}`. Coordinates only ever get
stored and compared here, never used in arithmetic, so `Int` stands in for the
JS number type. -/
structure Point where
  id : String
  x : Int
  y : Int
deriving DecidableEq, Repr

/-- `CoastlineData` from `src/types/index.ts`. -/
structure CoastlineData where
  points : List Point
  isClosed : Bool
deriving DecidableEq, Repr

/-- The `'add' | 'replace'` tag of `PendingEdit.type`. -/
inductive EditType where
  | add
  | replace
deriving DecidableEq, Repr

/-- `PendingEdit` from `src/types/index.ts`; the `?` fields become `Option`. -/
structure PendingEdit where
  type : EditType
  points : List Point
  startAnchorId : Option String
  endAnchorId : Option String
  replacedPointIds : Option (List String)
deriving DecidableEq, Repr

/-- `TowerType` from `src/types/index.ts`. -/
inductive TowerType where
  | aquagen
  | aerogen
  | petrogen
  | biogen
  | thermogen
  | photogen
  | keraunogen
  | kinegen
  | piezogen
deriving DecidableEq, Repr

/-- `Tower` from `src/types/index.ts`. -/
structure Tower where
  id : String
  x : Int
  y : Int
  type : TowerType
  power : Int
deriving DecidableEq, Repr

/-- `Settlement` from `src/types/index.ts`. -/
structure Settlement where
  id : String
  x : Int
  y : Int
  name : String
  size : Int
deriving DecidableEq, Repr

/-- `Road` from `src/types/index.ts`. -/
structure Road where
  id : String
  startSettlementId : String
  endSettlementId : String
  safe : Bool
deriving DecidableEq, Repr

/-- `TowerData` from `src/types/index.ts`. -/
structure TowerData where
  towers : List Tower
deriving DecidableEq, Repr

/-- `SettlementData` from `src/types/index.ts`. -/
structure SettlementData where
  settlements : List Settlement
deriving DecidableEq, Repr

/-- `RoadData` from `src/types/index.ts`. -/
structure RoadData where
  roads : List Road
deriving DecidableEq, Repr

/-- `AnnotationMode` from `src/types/index.ts`. -/
inductive AnnotationMode where
  | coastline
  | towerPosition
  | towerProperties
  | settlementPosition
  | settlementProperties
  | roadPosition
  | roadProperties
deriving DecidableEq, Repr

/-- `CoastlineSubMode` from `src/types/index.ts`. -/
inductive CoastlineSubMode where
  | add
  | remove
  | move
deriving DecidableEq, Repr

/-- `AppStateData` from `src/types/index.ts`, including the two selection
fields (`selectedTowerId`, `selectedSettlementId`) used by the revision of
`AppState.ts` under verification. -/
structure AppStateData where
  currentMode : AnnotationMode
  coastlineSubMode : CoastlineSubMode
  coastline : CoastlineData
  towers : TowerData
  settlements : SettlementData
  roads : RoadData
  pendingEdit : Option PendingEdit
  isBackgroundVisible : Bool
  selectedTowerType : TowerType
  selectedTowerPower : Int
  selectedSettlementSize : Int
  selectedRoadSafe : Bool
  pendingRoadStartId : Option String
  selectedTowerId : Option String
  selectedSettlementId : Option String
deriving DecidableEq, Repr

/-- The action vocabulary of `AppState.reduce`.  TS dispatches a string
`ActionType` together with an untyped payload that each reducer branch casts;
here each branch's payload type becomes the constructor's arguments.
`unknownAction` stands for any action string that reaches the reducer's
`default` branch. -/
inductive Action where
  | setMode (m : AnnotationMode)
  | setCoastlineSubMode (m : CoastlineSubMode)
  | setBackgroundVisible (b : Bool)
  | addPoint (x y : Int)
  | closeCoastline
  | setPendingEdit (pe : Option PendingEdit)
  | commitEdit
  | cancelEdit
  | removePoint (pid : String)
  | movePoint (pid : String) (x y : Int)
  | loadState (s : AppStateData)
  | undoAction
  | addTower (x y : Int)
  | removeTower (tid : String)
  | updateTower (t : Tower)
  | setTowerType (t : TowerType)
  | setTowerPower (p : Int)
  | addSettlement (x y : Int)
  | removeSettlement (sid : String)
  | updateSettlement (s : Settlement)
  | setSettlementSize (n : Int)
  | addRoad (startSettlementId endSettlementId : String)
  | removeRoad (rid : String)
  | updateRoad (r : Road)
  | setRoadSafe (b : Bool)
  | setPendingRoadStart (rid : Option String)
  | selectTower (tid : Option String)
  | selectSettlement (sid : Option String)
  | unknownAction (tag : String)
deriving DecidableEq, Repr

/-- The `type !== 'UNDO'` test in `AppState.dispatch`. -/
def Action.isUndo : Action → Bool
  | .undoAction => true
  | _ => false

/-- The reducer branches that call `generateId()` (and hence consume a value
drawn from `Math.random()`): `ADD_POINT`, `ADD_TOWER`, `ADD_SETTLEMENT`,
`ADD_ROAD`. -/
def Action.generatesId : Action → Bool
  | .addPoint _ _ => true
  | .addTower _ _ => true
  | .addSettlement _ _ => true
  | .addRoad _ _ => true
  | _ => false

/-- JS truthiness of an optional string field: `undefined` (here `none`) and
the empty string are falsy, every other string is truthy.  This is the test
`state.pendingEdit.startAnchorId && state.pendingEdit.endAnchorId` performs. -/
def strTruthy : Option String → Bool
  | none => false
  | some s => !s.isEmpty

/-- `points.findIndex(p => p.id === target)` where `target` is an optional
string: returns the first index whose id equals the (present) target.
TS returns `-1` on failure; here that is `none`. -/
def findIndexById (ps : List Point) (target : Option String) : Option Nat :=
  ps.findIdx? (fun p => decide (some p.id = target))

/-- The forward `while (i !== endIdx)` walk of `COMMIT_EDIT`: indices visited
stepping `+1 mod n` from `i` until reaching `stop` (exclusive).  The TS loop
terminates because the walk hits `stop` within `n` steps; the embedding makes
that explicit with a fuel argument instantiated to `n`. -/
def walkCW (n stop : Nat) : Nat → Nat → List Nat
  | 0, _ => []
  | fuel + 1, i => if i = stop then [] else i :: walkCW n stop fuel ((i + 1) % n)

/-- The backward walk of `COMMIT_EDIT`: stepping `-1 mod n` (written
`(i - 1 + n) % n` in TS; `(i + n - 1) % n` here, identical for `0 ≤ i < n`). -/
def walkCCW (n stop : Nat) : Nat → Nat → List Nat
  | 0, _ => []
  | fuel + 1, i => if i = stop then [] else i :: walkCCW n stop fuel ((i + n - 1) % n)

/-- `pathCW` of `COMMIT_EDIT`: forward walk from `(startIdx + 1) % n` up to but
excluding `endIdx`. -/
def pathCW (n startIdx endIdx : Nat) : List Nat :=
  walkCW n endIdx n ((startIdx + 1) % n)

/-- `pathCCW` of `COMMIT_EDIT`: backward walk from `(startIdx - 1 + n) % n`
down to but excluding `endIdx`. -/
def pathCCW (n startIdx endIdx : Nat) : List Nat :=
  walkCCW n endIdx n ((startIdx + n - 1) % n)

/-- `const useCW = pathCW.length <= pathCCW.length` of `COMMIT_EDIT`. -/
def useCW (n startIdx endIdx : Nat) : Bool :=
  decide ((pathCW n startIdx endIdx).length ≤ (pathCCW n startIdx endIdx).length)

/-- The replacement-splice block of `COMMIT_EDIT` (the code from
`const points = state.coastline.points` to the final state construction),
entered when the pending edit has type `'replace'` and truthy anchors.
The two `for` loops of each branch are `take`/`drop`:
`for j = 0..k: push points[j]` is `points.take (k+1)` and
`for j = k..n-1: push points[j]` is `points.drop k`. -/
def commitReplace (state : AppStateData) (pe : PendingEdit) : AppStateData :=
  let points := state.coastline.points
  let n := points.length
  match findIndexById points pe.startAnchorId, findIndexById points pe.endAnchorId with
  | some startIdx, some endIdx =>
    let newPendingPoints := pe.points
    let newPoints : List Point :=
      if useCW n startIdx endIdx then
        points.take (startIdx + 1) ++ newPendingPoints ++ points.drop endIdx
      else
        points.take (endIdx + 1) ++ newPendingPoints.reverse ++ points.drop startIdx
    { state with
      coastline := { state.coastline with points := newPoints },
      pendingEdit := none }
  | _, _ =>
    -- `if (startIdx === -1 || endIdx === -1) return { ...state, pendingEdit: null }`
    { state with pendingEdit := none }

/-- `AppState.reduce`.  `freshId` is the value `generateId()` would return for
the (at most one) id-generating branch of this action. -/
def reduce (state : AppStateData) (a : Action) (freshId : String) : AppStateData :=
  match a with
  | .setMode m => { state with currentMode := m }
  | .setCoastlineSubMode m => { state with coastlineSubMode := m }
  | .setBackgroundVisible b => { state with isBackgroundVisible := b }
  | .addPoint x y =>
    let newPoint : Point := { id := freshId, x := x, y := y }
    if state.coastline.isClosed then
      -- start a new pending edit if not already in one
      let pendingEdit : PendingEdit := state.pendingEdit.getD
        { type := .replace, points := [], startAnchorId := none,
          endAnchorId := none, replacedPointIds := none }
      { state with
        pendingEdit := some { pendingEdit with points := pendingEdit.points ++ [newPoint] } }
    else
      -- initial drawing: add point directly to coastline
      { state with
        coastline := { state.coastline with points := state.coastline.points ++ [newPoint] } }
  | .closeCoastline =>
    { state with coastline := { state.coastline with isClosed := true } }
  | .setPendingEdit pe => { state with pendingEdit := pe }
  | .commitEdit =>
    match state.pendingEdit with
    | none => state
    | some pe =>
      match pe.type with
      | .add =>
        -- for initial drawing, just close the coastline
        { state with
          coastline := { points := state.coastline.points ++ pe.points, isClosed := true },
          pendingEdit := none }
      | .replace =>
        if strTruthy pe.startAnchorId && strTruthy pe.endAnchorId then
          commitReplace state pe
        else
          { state with pendingEdit := none }
  | .cancelEdit => { state with pendingEdit := none }
  | .removePoint pid =>
    { state with
      coastline := { state.coastline with
        points := state.coastline.points.filter (fun p => p.id != pid) } }
  | .movePoint pid x y =>
    { state with
      coastline := { state.coastline with
        points := state.coastline.points.map
          (fun p => if p.id = pid then { p with x := x, y := y } else p) } }
  | .loadState s => s
  | .undoAction => state
  | .addTower x y =>
    let newTower : Tower :=
      { id := freshId, x := x, y := y,
        type := state.selectedTowerType, power := state.selectedTowerPower }
    { state with towers := { towers := state.towers.towers ++ [newTower] } }
  | .removeTower tid =>
    { state with towers := { towers := state.towers.towers.filter (fun t => t.id != tid) } }
  | .updateTower t =>
    { state with towers := { towers :=
        state.towers.towers.map (fun u => if u.id = t.id then t else u) } }
  | .setTowerType t => { state with selectedTowerType := t }
  | .setTowerPower p => { state with selectedTowerPower := p }
  | .addSettlement x y =>
    let newSettlement : Settlement :=
      { id := freshId, x := x, y := y, name := "", size := state.selectedSettlementSize }
    { state with settlements :=
        { settlements := state.settlements.settlements ++ [newSettlement] } }
  | .removeSettlement sid =>
    { state with settlements :=
        { settlements := state.settlements.settlements.filter (fun s => s.id != sid) } }
  | .updateSettlement s =>
    { state with settlements :=
        { settlements := state.settlements.settlements.map
            (fun u => if u.id = s.id then s else u) } }
  | .setSettlementSize n => { state with selectedSettlementSize := n }
  | .addRoad sid eid =>
    let newRoad : Road :=
      { id := freshId, startSettlementId := sid, endSettlementId := eid,
        safe := state.selectedRoadSafe }
    { state with
      roads := { roads := state.roads.roads ++ [newRoad] },
      pendingRoadStartId := none }
  | .removeRoad rid =>
    { state with roads := { roads := state.roads.roads.filter (fun r => r.id != rid) } }
  | .updateRoad r =>
    { state with roads := { roads :=
        state.roads.roads.map (fun u => if u.id = r.id then r else u) } }
  | .setRoadSafe b => { state with selectedRoadSafe := b }
  | .setPendingRoadStart rid => { state with pendingRoadStartId := rid }
  | .selectTower tid => { state with selectedTowerId := tid }
  | .selectSettlement sid => { state with selectedSettlementId := sid }
  | .unknownAction _ => state

/-- `createInitialState()` from `AppState.ts`, with `TOWER_SIZE.defaultPower =
200` and `SETTLEMENT_SIZE.defaultSize = 1` from `src/config/constants.ts`. -/
def createInitialState : AppStateData :=
  { currentMode := .coastline
    coastlineSubMode := .add
    coastline := { points := [], isClosed := false }
    towers := { towers := [] }
    settlements := { settlements := [] }
    roads := { roads := [] }
    pendingEdit := none
    isBackgroundVisible := true
    selectedTowerType := .aquagen
    selectedTowerPower := 200
    selectedSettlementSize := 1
    selectedRoadSafe := true
    pendingRoadStartId := none
    selectedTowerId := none
    selectedSettlementId := none }

instance : Inhabited AppStateData := ⟨createInitialState⟩

/-- The observable data of an `AppState` store instance: the current snapshot
plus the undo history.  The TS history array keeps the most recent snapshot at
the END (`push`/`pop` operate there, eviction `shift`s the front); this list
mirrors it most-recent-FIRST, so `push` is cons, `pop` reads the head and
eviction drops the last element. -/
structure Store where
  state : AppStateData
  history : List AppStateData
deriving DecidableEq, Repr

/-- `private maxHistory = 50`. -/
def maxHistory : Nat := 50

/-- The history push of `AppState.dispatch`: push the snapshot, then
`if (this.history.length > this.maxHistory) this.history.shift()`. -/
def pushHistory (snap : AppStateData) (h : List AppStateData) : List AppStateData :=
  let h2 := snap :: h
  if h2.length > maxHistory then h2.dropLast else h2

/-- `AppState.dispatch`: snapshot the current state into history (skipped for
`'UNDO'`), then replace the state with the reducer's output.  `deepClone` is a
JSON round-trip on plain data, i.e. the identity here. -/
def dispatch (a : Action) (freshId : String) (st : Store) : Store :=
  let previousState := st.state
  { state := reduce st.state a freshId
    history := if a.isUndo then st.history else pushHistory previousState st.history }

/-- `AppState.undo`: pops the most recent history entry if any, restores it as
the current state, and reports whether an undo occurred. -/
def undoStep (st : Store) : Bool × Store :=
  match st.history with
  | [] => (false, st)
  | previousState :: rest => (true, { state := previousState, history := rest })

/-- A run of dispatches, each paired with the id `generateId()` draws for it. -/
def dispatchList : List (Action × String) → Store → Store
  | [], st => st
  | (a, fid) :: rest, st => dispatchList rest (dispatch a fid st)

/-- The pre-action snapshots a run of dispatches clones, most recent first. -/
def snapshots : List (Action × String) → Store → List AppStateData
  | [], _ => []
  | (a, fid) :: rest, st => snapshots rest (dispatch a fid st) ++ [st.state]

/-- `k` consecutive `undo()` calls. -/
def undoN : Nat → Store → Store
  | 0, st => st
  | k + 1, st => undoN k (undoStep st).2

/-! Concrete fixtures used by counterexamples and witnesses. -/

def ptA : Point := ⟨"a", 0, 0⟩

def ptB : Point := ⟨"b", 1, 0⟩

def ptC : Point := ⟨"c", 2, 0⟩

def ptD : Point := ⟨"d", 3, 0⟩

def ptE : Point := ⟨"e", 4, 0⟩

def ptX : Point := ⟨"x", 10, 10⟩

def ptY : Point := ⟨"y", 11, 11⟩

/-- A closed five-vertex boundary [A,B,C,D,E]. -/
def closedABCDE : AppStateData :=
  { createInitialState with
      coastline := { points := [ptA, ptB, ptC, ptD, ptE], isClosed := true } }

/-- The worked example of the spec: replacement from anchor A to anchor C with
draft [X,Y] staged on the closed boundary [A,B,C,D,E]. -/
def stSpecExample : AppStateData :=
  { closedABCDE with
      pendingEdit := some ⟨.replace, [ptX, ptY], some "a", some "c", none⟩ }

/-- A replacement whose chosen (shorter, CW) arc wraps past the end of the
vertex array: anchors E and B on [A,B,C,D,E], draft [X]. -/
def stWrapAround : AppStateData :=
  { closedABCDE with
      pendingEdit := some ⟨.replace, [ptX], some "e", some "b", none⟩ }

/-- A closed triangle boundary [A,B,C]. -/
def stTriangle : AppStateData :=
  { createInitialState with
      coastline := { points := [ptA, ptB, ptC], isClosed := true } }

/-- An open one-vertex boundary holding a Draft ("add") pending edit with one
draft point and no end anchor. -/
def stDraftEdit : AppStateData :=
  { createInitialState with
      coastline := { points := [ptA], isClosed := false },
      pendingEdit := some ⟨.add, [ptX], none, none, none⟩ }

/-- A replacement edit whose end anchor was never set, on [A,B,C,D,E]. -/
def stNoEndAnchor : AppStateData :=
  { closedABCDE with
      pendingEdit := some ⟨.replace, [ptX], some "a", none, none⟩ }

/-- A fresh store: initial state, empty history. -/
def storeW5 : Store := ⟨createInitialState, []⟩

/-- A short run of two non-undo dispatches. -/
def actsW5 : List (Action × String) :=
  [(Action.closeCoastline, "i1"), (Action.setBackgroundVisible false, "i2")]

/-- A store whose history holds exactly one snapshot. -/
def storeN : Store := ⟨createInitialState, [createInitialState]⟩

/-- A run of 51 non-undo dispatches. -/
def acts51 : List (Action × String) :=
  List.replicate (maxHistory + 1) (Action.closeCoastline, "i")

/-! Theorems. -/

/-- Claim C7: ADD_POINT on an open boundary appends exactly one new vertex
with the freshly generated id to the end of the boundary (leaving everything
else, including the open flag, unchanged); ADD_POINT on a closed boundary with
an active PendingEdit appends the new vertex to the points of that pending
edit instead, leaving the boundary record entirely untouched. -/
theorem addPoint_branches (stO stC : AppStateData) (pe : PendingEdit) (x y : Int)
    (fid : String)
    (hO : stO.coastline.isClosed = false)
    (hC : stC.coastline.isClosed = true)
    (hpe : stC.pendingEdit = some pe) :
    reduce stO (.addPoint x y) fid
      = { stO with coastline := { stO.coastline with
            points := stO.coastline.points ++ [⟨fid, x, y⟩] } } ∧
    reduce stC (.addPoint x y) fid
      = { stC with pendingEdit := some ({ pe with points := pe.points ++ [⟨fid, x, y⟩] }) } := by
  constructor
  · simp [reduce, hO]
  · simp [reduce, hC, hpe]

/-- Witness for C7: the fresh open state and the closed boundary [A,B,C,D,E]
with the staged replacement edit of the worked example. -/
theorem addPoint_branches_witness :
    reduce createInitialState (.addPoint 7 8) "w"
      = { createInitialState with coastline := { createInitialState.coastline with
            points := createInitialState.coastline.points ++ [⟨"w", 7, 8⟩] } } ∧
    reduce stSpecExample (.addPoint 7 8) "w"
      = { stSpecExample with pendingEdit := some ⟨.replace, [ptX, ptY] ++ [⟨"w", 7, 8⟩],
            some "a", some "c", none⟩ } :=
  addPoint_branches createInitialState stSpecExample
    ⟨.replace, [ptX, ptY], some "a", some "c", none⟩ 7 8 "w"
    (by decide) (by decide) (by decide)

/-- Claim C8: on a closed boundary with no pending edit, ADD_POINT silently
creates a new PendingEdit of type "replace" whose point list holds only the
new vertex and which has no anchors set, and COMMIT_EDIT on the resulting
state discards that edit, returning the state to exactly what it was. -/
theorem addPoint_closed_creates_replace (st : AppStateData) (x y : Int) (fid fid2 : String)
    (hc : st.coastline.isClosed = true) (hp : st.pendingEdit = none) :
    reduce st (.addPoint x y) fid
      = { st with pendingEdit := some ⟨.replace, [⟨fid, x, y⟩], none, none, none⟩ } ∧
    reduce (reduce st (.addPoint x y) fid) .commitEdit fid2 = st := by
  have h1 : reduce st (.addPoint x y) fid
      = { st with pendingEdit := some ⟨.replace, [⟨fid, x, y⟩], none, none, none⟩ } := by
    simp [reduce, hc, hp]
  refine ⟨h1, ?_⟩
  rw [h1]
  show { st with pendingEdit := none } = st
  rw [← hp]

/-- Witness for C8 on the closed triangle [A,B,C]. -/
theorem addPoint_closed_creates_replace_witness :
    reduce stTriangle (.addPoint 5 6) "w"
      = { stTriangle with pendingEdit := some ⟨.replace, [⟨"w", 5, 6⟩], none, none, none⟩ } ∧
    reduce (reduce stTriangle (.addPoint 5 6) "w") .commitEdit "v" = stTriangle :=
  addPoint_closed_creates_replace stTriangle 5 6 "w" "v" (by decide) (by decide)

/-- Claim C9: COMMIT_EDIT on a Draft ("add") pending edit appends all of the
draft points to the end of the boundary in order, sets isClosed to true
regardless of the resulting vertex count, and clears the pending edit. -/
theorem commit_add_appends (st : AppStateData) (pe : PendingEdit) (fid : String)
    (hp : st.pendingEdit = some pe) (ht : pe.type = EditType.add) :
    reduce st .commitEdit fid
      = { st with
          coastline := { points := st.coastline.points ++ pe.points, isClosed := true },
          pendingEdit := none } := by
  obtain ⟨ty, pts, sa, ea, rp⟩ := pe
  simp only at ht
  subst ht
  simp [reduce, hp]

/-- Witness for C9: committing the Draft edit of `stDraftEdit` appends the
draft point and closes the one-vertex boundary. -/
theorem commit_add_appends_witness :
    reduce stDraftEdit .commitEdit "z"
      = { stDraftEdit with
          coastline := { points := stDraftEdit.coastline.points ++ [ptX], isClosed := true },
          pendingEdit := none } :=
  commit_add_appends stDraftEdit ⟨.add, [ptX], none, none, none⟩ "z" (by decide) (by decide)

/-- Counterexample to claim C4 as stated: `stDraftEdit` holds a PendingEdit
with no endAnchorId at all, yet COMMIT_EDIT changes the boundary (it appends
the draft point and closes the loop), because the no-op guard only covers
pending edits of type "replace", not Drafts of type "add". -/
theorem commit_no_anchor_mutates_cex :
    stDraftEdit.pendingEdit.map PendingEdit.endAnchorId = some none ∧
    (reduce stDraftEdit .commitEdit "z").coastline ≠ stDraftEdit.coastline := by
  decide

/-- Claim C4 amended: for a pending edit of type "replace", if the start or
end anchor is missing (JS-falsy) or does not match any boundary vertex,
COMMIT_EDIT leaves the boundary exactly unchanged and only clears the pending
edit. -/
theorem commit_replace_guard (st : AppStateData) (pe : PendingEdit) (fid : String)
    (hp : st.pendingEdit = some pe) (ht : pe.type = EditType.replace)
    (hbad : strTruthy pe.endAnchorId = false ∨ strTruthy pe.startAnchorId = false ∨
      findIndexById st.coastline.points pe.startAnchorId = none ∨
      findIndexById st.coastline.points pe.endAnchorId = none) :
    reduce st .commitEdit fid = { st with pendingEdit := none } := by
  obtain ⟨ty, pts, sa, ea, rp⟩ := pe
  simp only at ht hbad
  subst ht
  simp only [reduce, hp]
  by_cases hg : (strTruthy sa && strTruthy ea) = true
  · rw [if_pos hg]
    rw [Bool.and_eq_true] at hg
    rcases hbad with h | h | h | h
    · rw [hg.2] at h; cases h
    · rw [hg.1] at h; cases h
    · unfold commitReplace
      dsimp only
      split
      · simp_all
      · rfl
    · unfold commitReplace
      dsimp only
      split
      · simp_all
      · rfl
  · rw [if_neg hg]

/-- Witness for amended C4: committing the never-completed replacement of
`stNoEndAnchor` only clears the pending edit. -/
theorem commit_replace_guard_witness :
    reduce stNoEndAnchor .commitEdit "z" = { stNoEndAnchor with pendingEdit := none } :=
  commit_replace_guard stNoEndAnchor ⟨.replace, [ptX], some "a", none, none⟩ "z"
    (by decide) (by decide) (Or.inl (by decide))

/-- Counterexample to claim C3 as stated: the reducer has no minimum-size
guard, so REMOVE_POINT on the closed triangle [A,B,C] removes vertex A and
leaves a two-vertex boundary instead of rejecting the removal. -/
theorem removePoint_no_guard_cex :
    stTriangle.coastline.points.length = 3 ∧
    (reduce stTriangle (.removePoint "a") "z").coastline.points.length = 2 := by
  decide

/-- Helper for C3: filtering out one present id from a list of points with
pairwise-distinct ids shortens it by exactly one. -/
theorem length_filter_ne_of_nodup (pid : String) :
    ∀ l : List Point, (l.map Point.id).Nodup → pid ∈ l.map Point.id →
      (l.filter (fun p => p.id != pid)).length + 1 = l.length := by
  intro l
  induction l with
  | nil => simp
  | cons p t ih =>
    intro hnd hmem
    simp only [List.map_cons, List.nodup_cons] at hnd
    by_cases hid : p.id = pid
    · have htail : ∀ q ∈ t, (q.id != pid) = true := by
        intro q hq
        have hqne : q.id ≠ pid := by
          intro he
          exact hnd.1 (by rw [hid, ← he]; exact List.mem_map_of_mem Point.id hq)
        simp [hqne]
      simp [List.filter_cons, hid, List.filter_eq_self.mpr htail]
    · have hmem' : pid ∈ t.map Point.id := by
        rcases List.mem_cons.mp hmem with h | h
        · exact absurd h.symm hid
        · exact h
      have hrec := ih hnd.2 hmem'
      simp only [List.filter_cons]
      have : (p.id != pid) = true := by simp [hid]
      rw [this]
      simp only [if_true, List.length_cons]
      omega

/-- Claim C3 amended: REMOVE_POINT filters out every vertex with the given id
unconditionally, whatever the boundary size (there is no three-vertex guard);
when the vertex ids are pairwise distinct and the id is present, the boundary
length decreases by exactly one. -/
theorem removePoint_filters (st : AppStateData) (pid fid : String)
    (hnd : (st.coastline.points.map Point.id).Nodup)
    (hmem : pid ∈ st.coastline.points.map Point.id) :
    reduce st (.removePoint pid) fid
      = { st with coastline := { st.coastline with
            points := st.coastline.points.filter (fun p => p.id != pid) } } ∧
    (reduce st (.removePoint pid) fid).coastline.points.length + 1
      = st.coastline.points.length := by
  refine ⟨rfl, ?_⟩
  exact length_filter_ne_of_nodup pid st.coastline.points hnd hmem

/-- Witness for amended C3 on the closed triangle [A,B,C]. -/
theorem removePoint_filters_witness :
    reduce stTriangle (.removePoint "a") "z"
      = { stTriangle with coastline := { stTriangle.coastline with
            points := stTriangle.coastline.points.filter (fun p => p.id != "a") } } ∧
    (reduce stTriangle (.removePoint "a") "z").coastline.points.length + 1
      = stTriangle.coastline.points.length :=
  removePoint_filters stTriangle "a" "z" (by decide) (by decide)

/-- Counterexample to claim C6 as stated: ADD_POINT labels the new vertex
with the value `generateId()` draws from `Math.random()`, so two runs from
equal states with equal payloads can produce different states (here the draws
differ). -/
theorem reduce_not_deterministic_cex :
    reduce createInitialState (.addPoint 1 2) "id1"
      ≠ reduce createInitialState (.addPoint 1 2) "id2" := by
  decide

/-- Claim C6 amended: the reducer is a pure function of state, action payload
and the drawn fresh id, and for every action that does not call
`generateId()` the result does not depend on the drawn id at all, so those
actions are deterministic in (state, payload) alone. -/
theorem reduce_deterministic_given_id (st : AppStateData) (a : Action) (fid1 fid2 : String)
    (h : a.generatesId = false) :
    reduce st a fid1 = reduce st a fid2 := by
  cases a <;> simp_all [Action.generatesId, reduce]

/-- Witness for amended C6 at CANCEL_EDIT. -/
theorem reduce_deterministic_given_id_witness :
    reduce createInitialState .cancelEdit "p" = reduce createInitialState .cancelEdit "q" :=
  reduce_deterministic_given_id createInitialState .cancelEdit "p" "q" (by decide)

/-- Claim C1: evaluation of COMMIT_EDIT at the worked example and at a
wrap-around failing input.  On [A,B,C,D,E] with anchors A to C and draft
[X,Y] the commit yields [A,X,Y,C,D,E] as the spec says; but with anchors E to
B (chosen CW arc of length 1 crossing the end of the vertex array) the splice
duplicates vertices B,C,D,E, producing 10 vertices instead of the claimed
n - len(chosenArc) + len(draftPoints) = 5. -/
theorem commit_replace_wrap_duplicates :
    (reduce stSpecExample .commitEdit "z").coastline.points.map Point.id
      = ["a", "x", "y", "c", "d", "e"] ∧
    stWrapAround.coastline.points.length = 5 ∧
    useCW 5 4 1 = true ∧
    (pathCW 5 4 1).length = 1 ∧
    (reduce stWrapAround .commitEdit "z").coastline.points.map Point.id
      = ["a", "b", "c", "d", "e", "x", "b", "c", "d", "e"] ∧
    (reduce stWrapAround .commitEdit "z").coastline.points.length ≠ 5 - 1 + 1 := by
  decide

/-- If a positive number below `2 * n` is divisible by `n`, it equals `n`. -/
theorem mod_eq_zero_small (n a : Nat) (h1 : 0 < a) (h2 : a < 2 * n) (h : a % n = 0) :
    a = n := by
  rcases Nat.lt_or_ge a n with hlt | hge
  · rw [Nat.mod_eq_of_lt hlt] at h
    omega
  · rw [Nat.mod_eq_sub_mod hge, Nat.mod_eq_of_lt (by omega)] at h
    omega

/-- Reduction of `a % n` for `n ≤ a < 2 * n`. -/
theorem mod_small_sub (n a : Nat) (h1 : n ≤ a) (h2 : a < 2 * n) : a % n = a - n := by
  rw [Nat.mod_eq_sub_mod h1, Nat.mod_eq_of_lt (by omega)]

/-- Stepping a nonzero residue down by one. -/
theorem pred_mod (n m : Nat) (h0 : 0 < m) (h : m % n ≠ 0) : (m - 1) % n = m % n - 1 := by
  rcases Nat.eq_zero_or_pos n with hn | hn
  · subst hn
    simp [Nat.mod_zero]
  · have hd := Nat.div_add_mod m n
    have hr : m % n < n := Nat.mod_lt _ hn
    have hr1 : 1 ≤ m % n := Nat.pos_of_ne_zero h
    have hm : m - 1 = n * (m / n) + (m % n - 1) := by omega
    rw [hm, Nat.mul_add_mod, Nat.mod_eq_of_lt (by omega)]

/-- Length of the forward modular walk: with enough fuel it is the forward
modular distance from the start index to the stop index. -/
theorem walkCW_length (n e : Nat) (he : e < n) :
    ∀ (fuel i : Nat), i < n → (e + n - i) % n ≤ fuel →
      (walkCW n e fuel i).length = (e + n - i) % n := by
  intro fuel
  induction fuel with
  | zero =>
    intro i hi hf
    simp only [walkCW, List.length_nil]
    omega
  | succ f ih =>
    intro i hi hf
    by_cases hie : i = e
    · subst hie
      have h0 : i + n - i = n := by omega
      simp [walkCW, h0]
    · have hn0 : 0 < n := by omega
      have hd0 : (e + n - i) % n ≠ 0 := by
        intro h0
        have := mod_eq_zero_small n (e + n - i) (by omega) (by omega) h0
        omega
      have hstep : walkCW n e (f + 1) i = i :: walkCW n e f ((i + 1) % n) := by
        rw [walkCW]
        simp [hie]
      have hin : (i + 1) % n < n := Nat.mod_lt _ hn0
      have hnext : (e + n - (i + 1) % n) % n = (e + n - i) % n - 1 := by
        rcases Nat.lt_or_ge (i + 1) n with h1 | h1
        · rw [Nat.mod_eq_of_lt h1]
          have hm : e + n - (i + 1) = e + n - i - 1 := by omega
          rw [hm]
          exact pred_mod n (e + n - i) (by omega) hd0
        · have hi1 : i + 1 = n := by omega
          have hz : (i + 1) % n = 0 := by
            rw [hi1, Nat.mod_self]
          rw [hz]
          have hein : e + 1 < n := by omega
          have hl : e + n - 0 = e + n := by omega
          have hr : e + n - i = e + 1 := by omega
          rw [hl, hr, mod_small_sub n (e + n) (by omega) (by omega), Nat.mod_eq_of_lt hein]
          omega
      have hle : (e + n - (i + 1) % n) % n ≤ f := by
        rw [hnext]
        omega
      have hrec := ih ((i + 1) % n) hin hle
      rw [hstep]
      simp only [List.length_cons, hrec, hnext]
      omega

/-- Length of the backward modular walk: with enough fuel it is the backward
modular distance from the start index to the stop index. -/
theorem walkCCW_length (n e : Nat) (he : e < n) :
    ∀ (fuel i : Nat), i < n → (i + n - e) % n ≤ fuel →
      (walkCCW n e fuel i).length = (i + n - e) % n := by
  intro fuel
  induction fuel with
  | zero =>
    intro i hi hf
    simp only [walkCCW, List.length_nil]
    omega
  | succ f ih =>
    intro i hi hf
    by_cases hie : i = e
    · subst hie
      have h0 : i + n - i = n := by omega
      simp [walkCCW, h0]
    · have hn0 : 0 < n := by omega
      have hd0 : (i + n - e) % n ≠ 0 := by
        intro h0
        have := mod_eq_zero_small n (i + n - e) (by omega) (by omega) h0
        omega
      have hstep : walkCCW n e (f + 1) i = i :: walkCCW n e f ((i + n - 1) % n) := by
        rw [walkCCW]
        simp [hie]
      have hin : (i + n - 1) % n < n := Nat.mod_lt _ hn0
      have hnext : ((i + n - 1) % n + n - e) % n = (i + n - e) % n - 1 := by
        rcases Nat.eq_zero_or_pos i with h1 | h1
        · subst h1
          have he1 : 1 ≤ e := by omega
          have hz : (0 + n - 1) % n = n - 1 := by
            have := Nat.mod_eq_of_lt (show 0 + n - 1 < n by omega)
            omega
          rw [hz]
          have hA : (n - 1 + n - e) % n = n - 1 - e := by
            have hm := mod_small_sub n (n - 1 + n - e) (by omega) (by omega)
            omega
          have hB : (0 + n - e) % n = n - e := by
            have := Nat.mod_eq_of_lt (show 0 + n - e < n by omega)
            omega
          rw [hA, hB]
          omega
        · have hz : (i + n - 1) % n = i - 1 := by
            rw [mod_small_sub n (i + n - 1) (by omega) (by omega)]
            omega
          rw [hz]
          have hm : i - 1 + n - e = i + n - e - 1 := by omega
          rw [hm]
          exact pred_mod n (i + n - e) (by omega) hd0
      have hle : ((i + n - 1) % n + n - e) % n ≤ f := by
        rw [hnext]
        omega
      have hrec := ih ((i + n - 1) % n) hin hle
      rw [hstep]
      simp only [List.length_cons, hrec, hnext]
      omega

/-- The length of `pathCW` in closed form. -/
theorem pathCW_length (n s e : Nat) (hn : 0 < n) (hs : s < n) (he : e < n) :
    (pathCW n s e).length = (e + n - s - 1) % n := by
  unfold pathCW
  have hstart : (s + 1) % n < n := Nat.mod_lt _ hn
  have hfuel : (e + n - (s + 1) % n) % n ≤ n := Nat.le_of_lt (Nat.mod_lt _ hn)
  rw [walkCW_length n e he n ((s + 1) % n) hstart hfuel]
  rcases Nat.lt_or_ge (s + 1) n with h1 | h1
  · rw [Nat.mod_eq_of_lt h1]
    congr 1
  · have hs1 : s + 1 = n := by omega
    have hz : (s + 1) % n = 0 := by
      rw [hs1, Nat.mod_self]
    rw [hz, Nat.sub_zero]
    have h2 : (e + n) % n = e := by
      have hm := mod_small_sub n (e + n) (by omega) (by omega)
      omega
    have h3 : (e + n - s - 1) % n = e := by
      have h4 : e + n - s - 1 = e := by omega
      rw [h4, Nat.mod_eq_of_lt he]
    rw [h2, h3]

/-- The length of `pathCCW` in closed form. -/
theorem pathCCW_length (n s e : Nat) (hn : 0 < n) (hs : s < n) (he : e < n) (hne : s ≠ e) :
    (pathCCW n s e).length = (s + n - e - 1) % n := by
  unfold pathCCW
  have hstart : (s + n - 1) % n < n := Nat.mod_lt _ hn
  have hfuel : ((s + n - 1) % n + n - e) % n ≤ n := Nat.le_of_lt (Nat.mod_lt _ hn)
  rw [walkCCW_length n e he n ((s + n - 1) % n) hstart hfuel]
  rcases Nat.eq_zero_or_pos s with h1 | h1
  · subst h1
    have he1 : 1 ≤ e := by omega
    have hz : (0 + n - 1) % n = n - 1 := by
      have := Nat.mod_eq_of_lt (show 0 + n - 1 < n by omega)
      omega
    rw [hz]
    have hA : (n - 1 + n - e) % n = n - 1 - e := by
      have hm := mod_small_sub n (n - 1 + n - e) (by omega) (by omega)
      omega
    have hB : (0 + n - e - 1) % n = n - e - 1 := by
      have := Nat.mod_eq_of_lt (show 0 + n - e - 1 < n by omega)
      omega
    rw [hA, hB]
    omega
  · have hz : (s + n - 1) % n = s - 1 := by
      rw [mod_small_sub n (s + n - 1) (by omega) (by omega)]
      omega
    rw [hz]
    congr 1
    omega

/-- Claim C2: for any cycle length n with 3 or more vertices and two distinct
anchor indices s and e below n, the forward walk pathCW and the backward walk
pathCCW of COMMIT_EDIT cover all non-anchor indices between them, so their
lengths sum to n - 2; and the engine chooses the CW arc exactly when pathCW is
no longer than pathCCW (ties resolving to CW). -/
theorem pathCW_pathCCW_partition (n s e : Nat)
    (hn : 3 ≤ n) (hs : s < n) (he : e < n) (hne : s ≠ e) :
    (pathCW n s e).length + (pathCCW n s e).length = n - 2 ∧
    (useCW n s e = true ↔ (pathCW n s e).length ≤ (pathCCW n s e).length) := by
  constructor
  · rw [pathCW_length n s e (by omega) hs he, pathCCW_length n s e (by omega) hs he hne]
    rcases Nat.lt_or_ge s e with hlt | hge
    · rw [mod_small_sub n (e + n - s - 1) (by omega) (by omega),
        Nat.mod_eq_of_lt (show s + n - e - 1 < n by omega)]
      omega
    · have hgt : e < s := by omega
      rw [Nat.mod_eq_of_lt (show e + n - s - 1 < n by omega),
        mod_small_sub n (s + n - e - 1) (by omega) (by omega)]
      omega
  · simp [useCW]

/-- Witness for C2 at n = 5, s = 0, e = 2 (the worked example of the spec). -/
theorem pathCW_pathCCW_partition_witness :
    (pathCW 5 0 2).length + (pathCCW 5 0 2).length = 5 - 2 ∧
    (useCW 5 0 2 = true ↔ (pathCW 5 0 2).length ≤ (pathCCW 5 0 2).length) :=
  pathCW_pathCCW_partition 5 0 2 (by decide) (by decide) (by decide) (by decide)

/-- The history push performed by `dispatch`: the snapshot lands on top, and
the oldest entry is dropped exactly when the pushed list exceeds capacity. -/
theorem pushHistory_eq (s : AppStateData) (h : List AppStateData) :
    pushHistory s h
      = s :: (if h.length + 1 > maxHistory then h.dropLast else h) := by
  unfold pushHistory
  simp only [List.length_cons]
  by_cases hl : h.length + 1 > maxHistory
  · rw [if_pos hl, if_pos hl]
    cases h with
    | nil =>
      simp [maxHistory] at hl
    | cons b t => rfl
  · rw [if_neg hl, if_neg hl]

/-- On a bounded history the push-then-evict step is a `take` at capacity. -/
theorem pushHistory_bounded (s : AppStateData) (h : List AppStateData)
    (hb : h.length ≤ maxHistory) :
    pushHistory s h = (s :: h).take maxHistory := by
  unfold maxHistory at hb
  unfold pushHistory maxHistory
  simp only [List.length_cons]
  by_cases hl : h.length + 1 > 50
  · rw [if_pos hl, List.dropLast_eq_take]
    congr 1
    simp only [List.length_cons]
    omega
  · rw [if_neg hl]
    refine (List.take_of_length_le ?_).symm
    simp only [List.length_cons]
    omega

/-- Taking at capacity commutes with pre-truncated suffixes. -/
theorem take_append_take {α : Type} (xs ys : List α) (k : Nat) :
    (xs ++ ys.take k).take k = (xs ++ ys).take k := by
  rw [List.take_append_eq_append_take, List.take_append_eq_append_take, List.take_take]
  have hmin : min (k - xs.length) k = k - xs.length := by omega
  rw [hmin]

/-- A run of dispatches pushes one snapshot per action. -/
theorem snapshots_length : ∀ (L : List (Action × String)) (st : Store),
    (snapshots L st).length = L.length := by
  intro L
  induction L with
  | nil => intro st; rfl
  | cons p rest ih =>
    intro st
    obtain ⟨a, fid⟩ := p
    simp [snapshots, ih]

/-- After a run of non-undo dispatches from a bounded store, the history is
the snapshot list (most recent first) followed by the old history, truncated
at capacity. -/
theorem dispatchList_history : ∀ (L : List (Action × String)) (st : Store),
    (∀ p ∈ L, p.1.isUndo = false) → st.history.length ≤ maxHistory →
    (dispatchList L st).history = (snapshots L st ++ st.history).take maxHistory := by
  intro L
  induction L with
  | nil =>
    intro st _ hb
    simp only [dispatchList, snapshots, List.nil_append]
    exact (List.take_of_length_le hb).symm
  | cons p rest ih =>
    intro st hnu hb
    obtain ⟨a, fid⟩ := p
    have ha : a.isUndo = false := hnu (a, fid) (List.mem_cons_self _ _)
    have hrest : ∀ q ∈ rest, q.1.isUndo = false := fun q hq => hnu q (List.mem_cons_of_mem _ hq)
    have hhist : (dispatch a fid st).history = (st.state :: st.history).take maxHistory := by
      have hd1 : (dispatch a fid st).history
          = if a.isUndo = true then st.history else pushHistory st.state st.history := rfl
      rw [hd1]
      simp only [ha, Bool.false_eq_true, if_false]
      exact pushHistory_bounded st.state st.history hb
    have hble : (dispatch a fid st).history.length ≤ maxHistory := by
      rw [hhist, List.length_take]
      exact min_le_left _ _
    have hIH := ih (dispatch a fid st) hrest hble
    show (dispatchList rest (dispatch a fid st)).history = _
    rw [hIH, hhist]
    show (snapshots rest (dispatch a fid st)
        ++ (st.state :: st.history).take maxHistory).take maxHistory
      = ((snapshots rest (dispatch a fid st) ++ [st.state]) ++ st.history).take maxHistory
    rw [take_append_take, List.append_assoc, List.singleton_append]

/-- Popping down through a block of history entries: after as many undos as
there are entries above a given snapshot plus one, that snapshot is the
current state and everything below it is the remaining history. -/
theorem undoN_block : ∀ (pre : List AppStateData) (s : AppStateData)
    (h : List AppStateData) (st : Store),
    st.history = pre ++ s :: h → undoN (pre.length + 1) st = ⟨s, h⟩ := by
  intro pre
  induction pre with
  | nil =>
    intro s h st hst
    obtain ⟨cur, hist⟩ := st
    simp only at hst
    subst hst
    simp [undoN, undoStep]
  | cons p rest ih =>
    intro s h st hst
    obtain ⟨cur, hist⟩ := st
    simp only at hst
    subst hst
    show undoN (rest.length + 1 + 1) ⟨cur, p :: (rest ++ s :: h)⟩ = ⟨s, h⟩
    rw [undoN]
    exact ih s h ⟨p, rest ++ s :: h⟩ rfl

/-- Helper for C5: after a bounded run of non-undo dispatches, as many undos
as dispatches restore exactly the pre-run state. -/
theorem undoN_dispatchList_state (st : Store) (L : List (Action × String))
    (hb : st.history.length ≤ maxHistory)
    (hnu : ∀ p ∈ L, p.1.isUndo = false)
    (hk : L.length ≤ maxHistory) :
    (undoN L.length (dispatchList L st)).state = st.state := by
  cases L with
  | nil => simp [dispatchList, undoN]
  | cons p rest =>
    obtain ⟨a, fid⟩ := p
    have hh := dispatchList_history ((a, fid) :: rest) st hnu hb
    have hsnap : snapshots ((a, fid) :: rest) st
        = snapshots rest (dispatch a fid st) ++ [st.state] := rfl
    have hlenpre : (snapshots rest (dispatch a fid st)).length = rest.length :=
      snapshots_length rest _
    rw [hsnap] at hh
    have hk1 : rest.length + 1 ≤ maxHistory := by
      simpa using hk
    rw [List.take_append_eq_append_take] at hh
    have hfull : (snapshots rest (dispatch a fid st) ++ [st.state]).take maxHistory
        = snapshots rest (dispatch a fid st) ++ [st.state] := by
      refine List.take_of_length_le ?_
      simp only [List.length_append, List.length_cons, List.length_nil, hlenpre]
      omega
    rw [hfull, List.append_assoc, List.singleton_append] at hh
    have hlen : ((⟨a, fid⟩ :: rest : List (Action × String))).length
        = (snapshots rest (dispatch a fid st)).length + 1 := by
      simp [hlenpre]
    rw [hlen, undoN_block (snapshots rest (dispatch a fid st)) st.state _ _ hh]

/-- Helper for C5: the 51st consecutive dispatch evicts the snapshot of the
pre-run state: the history is exactly the 50 most recent snapshots. -/
theorem dispatchList_eviction (st : Store) (L : List (Action × String))
    (hb : st.history.length ≤ maxHistory)
    (hnu : ∀ p ∈ L, p.1.isUndo = false)
    (hk : L.length = maxHistory + 1) :
    snapshots L st = (dispatchList L st).history ++ [st.state] ∧
    (dispatchList L st).history.length = maxHistory := by
  cases L with
  | nil => simp [maxHistory] at hk
  | cons p rest =>
    obtain ⟨a, fid⟩ := p
    have hh := dispatchList_history ((a, fid) :: rest) st hnu hb
    have hsnap : snapshots ((a, fid) :: rest) st
        = snapshots rest (dispatch a fid st) ++ [st.state] := rfl
    have hlenpre : (snapshots rest (dispatch a fid st)).length = rest.length :=
      snapshots_length rest _
    have hrestlen : rest.length = maxHistory := by
      simp only [List.length_cons] at hk
      omega
    rw [hsnap, List.take_append_eq_append_take, List.take_append_eq_append_take] at hh
    have e1 : (snapshots rest (dispatch a fid st)).take maxHistory
        = snapshots rest (dispatch a fid st) :=
      List.take_of_length_le (by rw [hlenpre, hrestlen])
    have e2 : ([st.state] : List AppStateData).take
        (maxHistory - (snapshots rest (dispatch a fid st)).length) = [] := by
      rw [hlenpre, hrestlen]
      simp
    have e3 : st.history.take
        (maxHistory - (snapshots rest (dispatch a fid st) ++ [st.state]).length) = [] := by
      simp only [List.length_append, List.length_cons, List.length_nil, hlenpre, hrestlen]
      simp
    rw [e1, e2, e3] at hh
    simp only [List.append_nil] at hh
    constructor
    · rw [hsnap, hh]
    · rw [hh, hlenpre, hrestlen]

/-- Claim C5: undo on an empty history returns false and changes nothing;
on a nonempty history it pops the most recent snapshot, restores it and
returns true.  After k non-undo dispatches with k at most 50, k consecutive
undos restore exactly the pre-run state; after 51 consecutive dispatches the
history holds only the 50 most recent snapshots, so the snapshot of the
pre-run state (the oldest of the 51) has been evicted and is no longer
reachable by undo. -/
theorem undo_dispatch_contract (stE stN st : Store) (s0 : AppStateData)
    (rest : List AppStateData) (L1 L2 : List (Action × String))
    (hE : stE.history = [])
    (hN : stN.history = s0 :: rest)
    (hb : st.history.length ≤ maxHistory)
    (hnu1 : ∀ p ∈ L1, p.1.isUndo = false)
    (hk1 : L1.length ≤ maxHistory)
    (hnu2 : ∀ p ∈ L2, p.1.isUndo = false)
    (hk2 : L2.length = maxHistory + 1) :
    undoStep stE = (false, stE) ∧
    undoStep stN = (true, { state := s0, history := rest }) ∧
    (undoN L1.length (dispatchList L1 st)).state = st.state ∧
    snapshots L2 st = (dispatchList L2 st).history ++ [st.state] ∧
    (dispatchList L2 st).history.length = maxHistory := by
  refine ⟨?_, ?_, undoN_dispatchList_state st L1 hb hnu1 hk1,
    (dispatchList_eviction st L2 hb hnu2 hk2).1,
    (dispatchList_eviction st L2 hb hnu2 hk2).2⟩
  · simp [undoStep, hE]
  · simp [undoStep, hN]

/-- Witness for C5: a fresh store, a one-entry-history store, a two-action
run, and a 51-action run. -/
theorem undo_dispatch_contract_witness :
    undoStep storeW5 = (false, storeW5) ∧
    undoStep storeN = (true, { state := createInitialState, history := [] }) ∧
    (undoN actsW5.length (dispatchList actsW5 storeW5)).state = storeW5.state ∧
    snapshots acts51 storeW5 = (dispatchList acts51 storeW5).history ++ [storeW5.state] ∧
    (dispatchList acts51 storeW5).history.length = maxHistory :=
  undo_dispatch_contract storeW5 storeN storeW5 createInitialState [] actsW5 acts51
    (by decide) (by decide) (by decide) (by decide) (by decide) (by decide) (by decide)

/-- Claim C10: every non-undo dispatch pushes exactly one snapshot of the
pre-action state on top of the (possibly evicted) history, so an undo right
after such a dispatch always succeeds and restores the pre-dispatch state;
this includes dispatches whose reducer output equals the input, such as
unknown action types, CANCEL_EDIT with no pending edit, and MOVE_POINT with
an id absent from the boundary, so no-op dispatches consume undo capacity. -/
theorem dispatch_pushes_snapshot (st : Store) (a : Action) (fid tag pid : String)
    (x y : Int) (s1 s2 : AppStateData)
    (ha : a.isUndo = false)
    (h1 : s1.pendingEdit = none)
    (h2 : ∀ p ∈ s2.coastline.points, p.id ≠ pid) :
    (dispatch a fid st).history
      = st.state
          :: (if st.history.length + 1 > maxHistory then st.history.dropLast else st.history) ∧
    undoStep (dispatch a fid st)
      = (true, { state := st.state,
                 history := if st.history.length + 1 > maxHistory then st.history.dropLast
                   else st.history }) ∧
    reduce s1 (.unknownAction tag) fid = s1 ∧
    reduce s1 .cancelEdit fid = s1 ∧
    reduce s2 (.movePoint pid x y) fid = s2 := by
  have hd : dispatch a fid st
      = { state := reduce st.state a fid,
          history := st.state
            :: (if st.history.length + 1 > maxHistory then st.history.dropLast
                else st.history) } := by
    have hd1 : dispatch a fid st
        = { state := reduce st.state a fid,
            history := if a.isUndo = true then st.history
              else pushHistory st.state st.history } := rfl
    rw [hd1]
    simp only [ha, Bool.false_eq_true, if_false]
    rw [pushHistory_eq]
  refine ⟨?_, ?_, rfl, ?_, ?_⟩
  · rw [hd]
  · rw [hd]
    rfl
  · show { s1 with pendingEdit := none } = s1
    rw [← h1]
  · show { s2 with coastline := { s2.coastline with
        points := s2.coastline.points.map
          (fun p => if p.id = pid then { p with x := x, y := y } else p) } } = s2
    have hmap : s2.coastline.points.map
        (fun p => if p.id = pid then { p with x := x, y := y } else p)
        = s2.coastline.points := by
      have hcong : ∀ p ∈ s2.coastline.points,
          (if p.id = pid then { p with x := x, y := y } else p) = id p := by
        intro p hp2
        simp [h2 p hp2]
      rw [List.map_congr_left hcong, List.map_id]
    rw [hmap]

/-- Witness for C10 on a fresh store dispatching CLOSE_COASTLINE, with the
initial state (no pending edit) and the triangle state (no vertex named
"nope"). -/
theorem dispatch_pushes_snapshot_witness :
    (dispatch .closeCoastline "f" storeW5).history
      = storeW5.state
          :: (if storeW5.history.length + 1 > maxHistory then storeW5.history.dropLast
              else storeW5.history) ∧
    undoStep (dispatch .closeCoastline "f" storeW5)
      = (true, { state := storeW5.state,
                 history := if storeW5.history.length + 1 > maxHistory
                   then storeW5.history.dropLast else storeW5.history }) ∧
    reduce createInitialState (.unknownAction "BOGUS") "f" = createInitialState ∧
    reduce createInitialState .cancelEdit "f" = createInitialState ∧
    reduce stTriangle (.movePoint "nope" 1 2) "f" = stTriangle :=
  dispatch_pushes_snapshot storeW5 .closeCoastline "f" "BOGUS" "nope" 1 2
    createInitialState stTriangle (by decide) (by decide) (by decide)

end Phenn
